import Mathlib

/-!
Puppetmaster: a verified shallow embedding.

Shallow embedding of the `puppetmaster` input-handling crate
(`src/event.rs`, `src/polling.rs`, `src/query.rs`).

The crate keeps, for each of three handler variants, a configuration
`AHashMap<I, C>` from inputs to controls and a table `AHashMap<C, u32>` of
press durations.  The hash maps are modelled here as:

* the configuration: an association list `List (I × C)` with at most one
  entry per key, built by `collectMap` (repeated `HashMap::insert`, which
  overwrites an existing key, exactly as Rust's `collect::<HashMap<_,_>>()`
  does), looked up by `lookupMap` ;
* the duration table: a total function `C → Nat` — the Rust code only ever
  reads it through `get(..).copied().unwrap_or_default()`, so a missing
  entry is observationally the entry `0` and a total function is faithful ;
  the `u32` increment `+= 1` is modelled as `(t + 1) % 2^32` (release-mode
  wrapping arithmetic).

A `HashMap`'s iteration order is arbitrary; the model fixes the insertion
order of the association list.  Every property proved below about an
iteration (`tick`, `runQueries`) is established through closed forms that
do not depend on that order, except where a claim is explicitly about the
order of predicate invocations, which the Rust `filter_map`/`collect_vec`
pipeline performs once per entry in iteration order.
-/

namespace Puppetmaster

set_option linter.unusedSectionVars false

variable {I C : Type} [DecidableEq I] [DecidableEq C]

/-- Model of `HashMap::get`: the value of the (unique) entry for key `k`, if any.
Modelled as first-match lookup; on the key-distinct lists produced by
`collectMap` this is the hash-map lookup. -/
def lookupMap (m : List (I × C)) (k : I) : Option C :=
  (m.find? (fun e => decide (e.1 = k))).map Prod.snd

/-- Model of `HashMap::insert`: overwrite the entry for `k` if present, else add one. -/
def insertMap : List (I × C) → I → C → List (I × C)
  | [], k, v => [(k, v)]
  | e :: rest, k, v =>
      if e.1 = k then (k, v) :: rest else e :: insertMap rest k v

/-- Model of `iterator.collect::<HashMap<_,_>>()`: successive inserts, so a later
entry for the same key overwrites an earlier one. -/
def collectMap (entries : List (I × C)) : List (I × C) :=
  entries.foldl (fun m e => insertMap m e.1 e.2) []

/-- The control of the last entry for key `k` in `entries`, if any.
Reference function used to describe which duplicate survives
`collectMap`. -/
def lastEntryValue (entries : List (I × C)) (k : I) : Option C :=
  (entries.reverse.find? (fun e => decide (e.1 = k))).map Prod.snd

/-- The `u32` modulus. -/
def u32Size : Nat := 2 ^ 32

/-- One `u32` saturating-free wrapping increment (`*entry += 1`). -/
def bump (n : Nat) : Nat := (n + 1) % u32Size

/-- The per-frame loop shared verbatim by the three Rust `update` methods:

```rust
for ctrl in self.control_config.values() {
    if pressed_controls.contains(ctrl) {
        *self.control_time.entry(ctrl.clone()).or_default() += 1;
    } else {
        self.control_time.insert(ctrl.clone(), 0);
    }
}
```

`pressedContains` is the membership test of the frame's pressed-control
collection; the list is the configuration, iterated entry by entry. -/
def tick (pressedContains : C → Bool) : List (I × C) → (C → Nat) → C → Nat
  | [], t => t
  | (_, ctrl) :: rest, t =>
      tick pressedContains rest
        (if pressedContains ctrl
         then fun c => if c = ctrl then (t ctrl + 1) % u32Size else t c
         else fun c => if c = ctrl then 0 else t c)

/-! Handler `EventInputHandler` (src/event.rs) -/

structure EventInputHandler (I C : Type) where
  /-- Maps inputs to the controls they activate. -/
  control_config : List (I × C)
  /-- How long each control has been pressed. -/
  control_time : C → Nat
  /-- Controls currently considered down; loaded into the times at `update`. -/
  pressed_controls : C → Bool

namespace EventInputHandler

/-- Rust `EventInputHandler::new_with_controls`. -/
def new_with_controls (entries : List (I × C)) : EventInputHandler I C :=
  { control_config := collectMap entries
    control_time := fun _ => 0
    pressed_controls := fun _ => false }

/-- Rust `EventInputHandler::on_input_down`. -/
def on_input_down (s : EventInputHandler I C) (input : I) : EventInputHandler I C :=
  match lookupMap s.control_config input with
  | some ctrl =>
      { s with pressed_controls := fun c => if c = ctrl then true else s.pressed_controls c }
  | none => s

/-- Rust `EventInputHandler::on_input_up`. -/
def on_input_up (s : EventInputHandler I C) (input : I) : EventInputHandler I C :=
  match lookupMap s.control_config input with
  | some ctrl =>
      { s with pressed_controls := fun c => if c = ctrl then false else s.pressed_controls c }
  | none => s

/-- Rust `EventInputHandler::clear_inputs`. -/
def clear_inputs (s : EventInputHandler I C) : EventInputHandler I C :=
  { s with pressed_controls := fun _ => false }

/-- Rust `EventInputHandler::update`. -/
def update (s : EventInputHandler I C) : EventInputHandler I C :=
  { s with control_time := tick s.pressed_controls s.control_config s.control_time }

/-- Rust `EventInputHandler::press_time`. -/
def press_time (s : EventInputHandler I C) (ctrl : C) : Nat :=
  s.control_time ctrl

/-- Rust `EventInputHandler::down`. -/
def down (s : EventInputHandler I C) (ctrl : C) : Bool :=
  decide (s.press_time ctrl ≥ 1)

/-- Rust `EventInputHandler::up`. -/
def up (s : EventInputHandler I C) (ctrl : C) : Bool :=
  decide (s.press_time ctrl = 0)

/-- Rust `EventInputHandler::clicked`. -/
def clicked (s : EventInputHandler I C) (ctrl : C) : Bool :=
  decide (s.press_time ctrl = 1)

/-- Iterated frames: `update` applied `n` times. -/
def updates (s : EventInputHandler I C) : Nat → EventInputHandler I C
  | 0 => s
  | n + 1 => (updates s n).update

end EventInputHandler

/-! Handler `PollingInputHandler` (src/polling.rs) -/

structure PollingInputHandler (I C : Type) where
  /-- Maps inputs to the controls they activate. -/
  control_config : List (I × C)
  /-- How long each control has been pressed. -/
  control_time : C → Nat

namespace PollingInputHandler

/-- Rust `PollingInputHandler::new_with_controls`. -/
def new_with_controls (entries : List (I × C)) : PollingInputHandler I C :=
  { control_config := collectMap entries
    control_time := fun _ => 0 }

/-- Rust `PollingInputHandler::clear_inputs`. -/
def clear_inputs (s : PollingInputHandler I C) : PollingInputHandler I C :=
  { s with control_time := fun _ => 0 }

/-- Rust `PollingInputHandler::update`: `pressed_inputs` flat-mapped through the
configuration gives the pressed controls, then the shared loop runs. -/
def update (s : PollingInputHandler I C) (pressed_inputs : List I) :
    PollingInputHandler I C :=
  let pressed_controls := pressed_inputs.filterMap (fun input => lookupMap s.control_config input)
  let t := tick (fun c => decide (c ∈ pressed_controls)) s.control_config s.control_time
  { s with control_time := t }

/-- Rust `PollingInputHandler::press_time`. -/
def press_time (s : PollingInputHandler I C) (ctrl : C) : Nat :=
  s.control_time ctrl

/-- Rust `PollingInputHandler::down`. -/
def down (s : PollingInputHandler I C) (ctrl : C) : Bool :=
  decide (s.press_time ctrl ≥ 1)

/-- Rust `PollingInputHandler::up`. -/
def up (s : PollingInputHandler I C) (ctrl : C) : Bool :=
  decide (s.press_time ctrl = 0)

/-- Rust `PollingInputHandler::clicked`. -/
def clicked (s : PollingInputHandler I C) (ctrl : C) : Bool :=
  decide (s.press_time ctrl = 1)

/-- Iterated frames on each of which exactly the inputs `xs` are pressed. -/
def updates (s : PollingInputHandler I C) (xs : List I) : Nat → PollingInputHandler I C
  | 0 => s
  | n + 1 => (updates s xs n).update xs

end PollingInputHandler

/-! Handler `QueryInputHandler` (src/query.rs) -/

structure QueryInputHandler (I C : Type) where
  /-- Maps inputs to the controls they activate. -/
  control_config : List (I × C)
  /-- How long each control has been pressed. -/
  control_time : C → Nat

namespace QueryInputHandler

/-- Rust `QueryInputHandler::new_with_controls`. -/
def new_with_controls (entries : List (I × C)) : QueryInputHandler I C :=
  { control_config := collectMap entries
    control_time := fun _ => 0 }

/-- Rust `QueryInputHandler::clear_inputs`. -/
def clear_inputs (s : QueryInputHandler I C) : QueryInputHandler I C :=
  { s with control_time := fun _ => 0 }

/-- Rust `QueryInputHandler::update` for a stateless `is_pressed` closure:
`filter_map` over the configuration entries collects the controls of the
inputs the predicate reports pressed, then the shared loop runs. -/
def update (s : QueryInputHandler I C) (is_pressed : I → Bool) :
    QueryInputHandler I C :=
  let pressed_controls := s.control_config.filterMap
    (fun e => if is_pressed e.1 then some e.2 else none)
  let t := tick (fun c => decide (c ∈ pressed_controls)) s.control_config s.control_time
  { s with control_time := t }

/-- The `filter_map`/`collect_vec` pipeline of `QueryInputHandler::update`
for a stateful `FnMut` closure: the closure (explicit state `σ`) is called
once per configuration entry, in iteration order, and the controls of the
entries it accepted are collected. -/
def runQueries {σ : Type} (is_pressed : σ → I → Bool × σ) :
    List (I × C) → σ → List C × σ
  | [], st => ([], st)
  | (input, ctrl) :: rest, st =>
      let r := is_pressed st input
      let rest' := runQueries is_pressed rest r.2
      ((if r.1 then [ctrl] else []) ++ rest'.1, rest'.2)

/-- Rust `QueryInputHandler::update` for a stateful `FnMut` closure, returning
the final closure state alongside the handler. -/
def updateM {σ : Type} (s : QueryInputHandler I C) (is_pressed : σ → I → Bool × σ)
    (st : σ) : QueryInputHandler I C × σ :=
  let r := runQueries is_pressed s.control_config st
  let t := tick (fun c => decide (c ∈ r.1)) s.control_config s.control_time
  ({ s with control_time := t }, r.2)

/-- Rust `QueryInputHandler::press_time`. -/
def press_time (s : QueryInputHandler I C) (ctrl : C) : Nat :=
  s.control_time ctrl

/-- Rust `QueryInputHandler::down`. -/
def down (s : QueryInputHandler I C) (ctrl : C) : Bool :=
  decide (s.press_time ctrl ≥ 1)

/-- Rust `QueryInputHandler::up`. -/
def up (s : QueryInputHandler I C) (ctrl : C) : Bool :=
  decide (s.press_time ctrl = 0)

/-- Rust `QueryInputHandler::clicked`. -/
def clicked (s : QueryInputHandler I C) (ctrl : C) : Bool :=
  decide (s.press_time ctrl = 1)

/-- Iterated frames driven by the same stateless predicate. -/
def updates (s : QueryInputHandler I C) (p : I → Bool) : Nat → QueryInputHandler I C
  | 0 => s
  | n + 1 => (updates s p n).update p

end QueryInputHandler

/-! Basic lemmas about the map model -/

theorem lookupMap_nil (k : I) : lookupMap ([] : List (I × C)) k = none := rfl

theorem lookupMap_cons (e : I × C) (rest : List (I × C)) (k : I) :
    lookupMap (e :: rest) k = if e.1 = k then some e.2 else lookupMap rest k := by
  by_cases h : e.1 = k <;> simp [lookupMap, List.find?_cons, h]

theorem lookupMap_insertMap (m : List (I × C)) (k : I) (v : C) (k' : I) :
    lookupMap (insertMap m k v) k' = if k' = k then some v else lookupMap m k' := by
  induction m with
  | nil =>
    by_cases h : k' = k
    · simp [insertMap, lookupMap_cons, lookupMap_nil, h]
    · have h' : ¬k = k' := fun hh => h hh.symm
      simp [insertMap, lookupMap_cons, lookupMap_nil, h, h']
  | cons e rest ih =>
    by_cases he : e.1 = k
    · by_cases h : k' = k
      · simp [insertMap, he, lookupMap_cons, h]
      · have h' : ¬k = k' := fun hh => h hh.symm
        simp [insertMap, he, lookupMap_cons, h, h']
    · by_cases h : k' = k
      · subst h
        have : e.1 ≠ k' := he
        simp [insertMap, he, lookupMap_cons, this, ih]
      · by_cases hek : e.1 = k' <;> simp [insertMap, he, lookupMap_cons, hek, ih, h]

theorem collectMap_append_single (entries : List (I × C)) (e : I × C) :
    collectMap (entries ++ [e]) = insertMap (collectMap entries) e.1 e.2 := by
  simp [collectMap, List.foldl_append]

theorem lastEntryValue_append_single (entries : List (I × C)) (e : I × C) (k : I) :
    lastEntryValue (entries ++ [e]) k
      = if e.1 = k then some e.2 else lastEntryValue entries k := by
  by_cases h : e.1 = k <;> simp [lastEntryValue, List.find?_cons, h]

theorem lookupMap_collectMap (entries : List (I × C)) (k : I) :
    lookupMap (collectMap entries) k = lastEntryValue entries k := by
  induction entries using List.reverseRecOn with
  | nil => rfl
  | append_singleton rest e ih =>
    rw [collectMap_append_single, lookupMap_insertMap, lastEntryValue_append_single]
    by_cases h : e.1 = k
    · simp [h]
    · have h' : ¬k = e.1 := fun hh => h hh.symm
      simp [h, h', ih]

/-! The per-frame loop in closed form -/

theorem u32Size_pos : 0 < u32Size := by
  simp [u32Size]

theorem bump_mod (n : Nat) : bump (n % u32Size) = (n + 1) % u32Size := by
  unfold bump
  conv_rhs => rw [Nat.add_mod]
  norm_num [u32Size]

/-- Evaluating `tick` at a control `c`: writing `m` for the number of
configuration entries whose control is `c`, the result is `t c` bumped `m`
times when `c` is pressed, `t c` untouched when `c` is pressed by no entry,
and `0` when `c` is unpressed but configured. -/
theorem tick_apply (pressed : C → Bool) (l : List (I × C)) (t : C → Nat) (c : C) :
    tick pressed l t c =
      if pressed c then bump^[l.countP (fun e => decide (e.2 = c))] (t c)
      else if l.countP (fun e => decide (e.2 = c)) = 0 then t c else 0 := by
  induction l generalizing t with
  | nil => by_cases hp : pressed c <;> simp [tick, hp]
  | cons e rest ih =>
    obtain ⟨i, ctrl⟩ := e
    by_cases hc : ctrl = c
    · subst hc
      have hcount : List.countP (fun e => decide (e.2 = ctrl)) ((i, ctrl) :: rest)
          = List.countP (fun e => decide (e.2 = ctrl)) rest + 1 := by
        simp [List.countP_cons]
      by_cases hp : pressed ctrl
      · rw [tick, if_pos hp, ih, if_pos hp, if_pos hp, hcount, Function.iterate_succ_apply]
        simp [bump]
      · rw [tick, if_neg hp, ih, if_neg hp, if_neg hp, hcount]
        simp
    · have hc' : ¬ctrl = c := hc
      have hcc : ¬c = ctrl := fun hh => hc hh.symm
      have hcount : List.countP (fun e => decide (e.2 = c)) ((i, ctrl) :: rest)
          = List.countP (fun e => decide (e.2 = c)) rest := by
        simp [List.countP_cons, hc']
      by_cases hp : pressed ctrl
      · rw [tick, if_pos hp, ih, hcount]
        simp [hcc]
      · rw [tick, if_neg hp, ih, hcount]
        simp [hcc]

theorem countP_snd_eq_zero (l : List (I × C)) (c : C)
    (h : c ∉ l.map Prod.snd) : l.countP (fun e => decide (e.2 = c)) = 0 := by
  rw [List.countP_eq_zero]
  intro e he
  simp only [decide_eq_true_eq]
  intro hec
  exact h (List.mem_map.2 ⟨e, he, hec⟩)

theorem countP_snd_pos_mem (l : List (I × C)) (c : C)
    (h : l.countP (fun e => decide (e.2 = c)) ≠ 0) : c ∈ l.map Prod.snd := by
  by_contra hc
  exact h (countP_snd_eq_zero l c hc)

theorem countP_snd_ne_zero_of_mem (l : List (I × C)) (c : C)
    (h : c ∈ l.map Prod.snd) : l.countP (fun e => decide (e.2 = c)) ≠ 0 := by
  intro h0
  rw [List.countP_eq_zero] at h0
  obtain ⟨e, he, hec⟩ := List.mem_map.1 h
  have := h0 e he
  simp [hec] at this

theorem countP_snd_single (k : I) (c : C) :
    ([(k, c)] : List (I × C)).countP (fun e => decide (e.2 = c)) = 1 := by
  simp

theorem tick_single (pressed : C → Bool) (k : I) (c : C) (t : C → Nat)
    (hp : pressed c = true) : tick pressed [(k, c)] t c = bump (t c) := by
  rw [tick_apply, countP_snd_single, if_pos hp]
  rfl

/-! Notifications and frame iteration -/

theorem filterMap_none {α β : Type} (l : List α) :
    l.filterMap (fun _ => (none : Option β)) = [] := by
  induction l with
  | nil => rfl
  | cons a rest ih => simp [List.filterMap_cons, ih]

theorem on_input_down_config (s : EventInputHandler I C) (i : I) :
    (s.on_input_down i).control_config = s.control_config := by
  cases h : lookupMap s.control_config i <;> simp [EventInputHandler.on_input_down, h]

theorem on_input_up_config (s : EventInputHandler I C) (i : I) :
    (s.on_input_up i).control_config = s.control_config := by
  cases h : lookupMap s.control_config i <;> simp [EventInputHandler.on_input_up, h]

theorem on_input_down_pressed_found (s : EventInputHandler I C) (k : I) (c : C)
    (hk : lookupMap s.control_config k = some c) :
    (s.on_input_down k).pressed_controls
      = fun c' => if c' = c then true else s.pressed_controls c' := by
  simp [EventInputHandler.on_input_down, hk]

theorem on_input_up_pressed_found (s : EventInputHandler I C) (k : I) (c : C)
    (hk : lookupMap s.control_config k = some c) :
    (s.on_input_up k).pressed_controls
      = fun c' => if c' = c then false else s.pressed_controls c' := by
  simp [EventInputHandler.on_input_up, hk]

theorem on_input_down_time (s : EventInputHandler I C) (i : I) :
    (s.on_input_down i).control_time = s.control_time := by
  cases h : lookupMap s.control_config i <;> simp [EventInputHandler.on_input_down, h]

theorem on_input_up_time (s : EventInputHandler I C) (i : I) :
    (s.on_input_up i).control_time = s.control_time := by
  cases h : lookupMap s.control_config i <;> simp [EventInputHandler.on_input_up, h]

theorem event_updates_config (s : EventInputHandler I C) (n : Nat) :
    (s.updates n).control_config = s.control_config := by
  induction n with
  | zero => rfl
  | succ n ih => simpa [EventInputHandler.updates, EventInputHandler.update] using ih

theorem event_updates_pressed (s : EventInputHandler I C) (n : Nat) :
    (s.updates n).pressed_controls = s.pressed_controls := by
  induction n with
  | zero => rfl
  | succ n ih => simpa [EventInputHandler.updates, EventInputHandler.update] using ih

theorem polling_updates_config (s : PollingInputHandler I C) (xs : List I) (n : Nat) :
    (s.updates xs n).control_config = s.control_config := by
  induction n with
  | zero => rfl
  | succ n ih => simpa [PollingInputHandler.updates, PollingInputHandler.update] using ih

theorem query_updates_config (s : QueryInputHandler I C) (p : I → Bool) (n : Nat) :
    (s.updates p n).control_config = s.control_config := by
  induction n with
  | zero => rfl
  | succ n ih => simpa [QueryInputHandler.updates, QueryInputHandler.update] using ih

theorem event_update_single (s : EventInputHandler I C) (k : I) (c : C)
    (hc : s.control_config = [(k, c)]) (hp : s.pressed_controls c = true) :
    (s.update).press_time c = bump (s.control_time c) := by
  have h1 : (s.update).press_time c
      = tick s.pressed_controls s.control_config s.control_time c := rfl
  rw [h1, hc, tick_single _ k c _ hp]

theorem polling_update_single (s : PollingInputHandler I C) (k : I) (c : C)
    (hc : s.control_config = [(k, c)]) :
    (s.update [k]).press_time c = bump (s.control_time c) := by
  obtain ⟨cfg, tm⟩ := s
  obtain rfl : cfg = [(k, c)] := hc
  have hlist : [k].filterMap (fun input => lookupMap ([(k, c)] : List (I × C)) input)
      = [c] := by
    simp [lookupMap_cons]
  have hfun : (fun c' => decide (c' ∈ [k].filterMap
      (fun input => lookupMap ([(k, c)] : List (I × C)) input)))
      = fun c' : C => decide (c' ∈ ([c] : List C)) := by
    funext c'
    exact decide_eq_decide.2 (by rw [hlist])
  have h1 : ((⟨[(k, c)], tm⟩ : PollingInputHandler I C).update [k]).press_time c
      = tick (fun c' => decide (c' ∈ [k].filterMap
          (fun input => lookupMap ([(k, c)] : List (I × C)) input))) [(k, c)] tm c := rfl
  rw [h1, hfun, tick_single _ k c _ (by simp)]

theorem query_update_single (s : QueryInputHandler I C) (k : I) (c : C)
    (hc : s.control_config = [(k, c)]) :
    (s.update (fun _ => true)).press_time c = bump (s.control_time c) := by
  obtain ⟨cfg, tm⟩ := s
  obtain rfl : cfg = [(k, c)] := hc
  have h1 : ((⟨[(k, c)], tm⟩ : QueryInputHandler I C).update (fun _ => true)).press_time c
      = tick (fun c' : C => decide (c' ∈ ([c] : List C))) [(k, c)] tm c := rfl
  rw [h1, tick_single _ k c _ (by simp)]

/-! List helpers for the refinement and insensitivity claims -/

theorem filterMap_congr_mem {α β : Type} (l : List α) (f g : α → Option β)
    (h : ∀ a ∈ l, f a = g a) : l.filterMap f = l.filterMap g := by
  induction l with
  | nil => rfl
  | cons a rest ih =>
    rw [List.filterMap_cons, List.filterMap_cons, h a (List.mem_cons_self a rest),
      ih (fun b hb => h b (List.mem_cons_of_mem a hb))]

theorem lookupMap_mem_of_nodup (l : List (I × C)) (e : I × C)
    (hnd : (l.map Prod.fst).Nodup) (he : e ∈ l) : lookupMap l e.1 = some e.2 := by
  induction l with
  | nil => cases he
  | cons a rest ih =>
    rw [List.map_cons, List.nodup_cons] at hnd
    rcases List.mem_cons.1 he with rfl | he'
    · simp [lookupMap_cons]
    · have hne : a.1 ≠ e.1 := by
        intro hh
        exact hnd.1 (hh ▸ List.mem_map.2 ⟨e, he', rfl⟩)
      rw [lookupMap_cons, if_neg hne]
      exact ih hnd.2 he'

theorem pressed_of_snapshot_of_query (config : List (I × C)) (p : I → Bool)
    (hnd : (config.map Prod.fst).Nodup) :
    ((config.filter (fun e => p e.1)).map Prod.fst).filterMap (lookupMap config)
      = config.filterMap (fun e => if p e.1 = true then some e.2 else none) := by
  induction config with
  | nil => rfl
  | cons a rest ih =>
    rw [List.map_cons, List.nodup_cons] at hnd
    have hcongr :
        ((rest.filter (fun e => p e.1)).map Prod.fst).filterMap (lookupMap (a :: rest))
          = ((rest.filter (fun e => p e.1)).map Prod.fst).filterMap (lookupMap rest) := by
      refine filterMap_congr_mem _ _ _ (fun x hx => ?_)
      obtain ⟨e, he, rfl⟩ := List.mem_map.1 hx
      have he' : e ∈ rest := (List.mem_filter.1 he).1
      have hne : a.1 ≠ e.1 := by
        intro hh
        exact hnd.1 (hh ▸ List.mem_map.2 ⟨e, he', rfl⟩)
      rw [lookupMap_cons, if_neg hne]
    by_cases hpa : p a.1
    · rw [List.filter_cons_of_pos (by simpa using hpa), List.map_cons, List.filterMap_cons,
        List.filterMap_cons]
      have hl : lookupMap (a :: rest) a.1 = some a.2 := by simp [lookupMap_cons]
      rw [hl]
      simp only [hpa, if_true]
      rw [hcongr, ih hnd.2]
    · rw [List.filter_cons_of_neg (by simpa using hpa), List.filterMap_cons]
      have hpa' : (if p a.1 = true then some a.2 else none) = none := by simp [hpa]
      rw [hpa']
      rw [hcongr, ih hnd.2]

/-! Claims -/

/-- Claim C1, counterexample: building a tracker from `[(0, 1), (0, 2)]`
does NOT map input `0` to the first control `1`; the duplicate is resolved
in favour of the second entry, so `0` maps to `2`. -/
theorem duplicate_input_first_wins_false :
    lookupMap ((EventInputHandler.new_with_controls
        [((0 : Nat), (1 : Nat)), (0, 2)]).control_config) 0 = some 2
    ∧ lookupMap ((EventInputHandler.new_with_controls
        [((0 : Nat), (1 : Nat)), (0, 2)]).control_config) 0 ≠ some 1 := by
  decide

/-- Claim C1, amended: duplicate `Input` keys are resolved LAST-wins, for
every tracker variant: the configuration built from an ordered sequence of
`(Input, Control)` pairs maps each input to the control of its last
occurrence in the sequence (`lastEntryValue`). -/
theorem new_with_controls_last_wins (entries : List (I × C)) (k : I) :
    lookupMap (EventInputHandler.new_with_controls entries).control_config k
        = lastEntryValue entries k
    ∧ lookupMap (PollingInputHandler.new_with_controls entries).control_config k
        = lastEntryValue entries k
    ∧ lookupMap (QueryInputHandler.new_with_controls entries).control_config k
        = lastEntryValue entries k :=
  ⟨lookupMap_collectMap entries k, lookupMap_collectMap entries k,
    lookupMap_collectMap entries k⟩

/-- Claim C2, code bug: with configuration `{A ↦ Up, B ↦ Up, C ↦ Down}`
(encoded `A,B,C = 0,1,2`, `Up,Down = 0,1`), the Snapshot tracker's
`update([A])` yields press duration `2` for `Up`, not `1`: the update loop
iterates over configuration VALUES, so a pressed control is incremented
once per input mapped to it.  `Down` correctly stays inactive, and
`update([])` correctly resets, but the following `update([B])` yields `4`,
not `2`. -/
theorem snapshot_shared_control_double_increment :
    ((PollingInputHandler.new_with_controls
        [((0 : Nat), (0 : Nat)), (1, 0), (2, 1)]).update [0]).press_time 0 = 2
    ∧ ((PollingInputHandler.new_with_controls
        [((0 : Nat), (0 : Nat)), (1, 0), (2, 1)]).update [0]).down 1 = false
    ∧ (((PollingInputHandler.new_with_controls
        [((0 : Nat), (0 : Nat)), (1, 0), (2, 1)]).update [0]).update [1]).press_time 0 = 4
    ∧ ((((PollingInputHandler.new_with_controls
        [((0 : Nat), (0 : Nat)), (1, 0), (2, 1)]).update [0]).update [1]).update
          []).press_time 0 = 0 := by
  decide

/-- Claim C3, code bug: on the Edge-Driven tracker with two inputs mapped
to one control (`{0 ↦ 0, 1 ↦ 0}`), one frame of activity via input `0`
yields press duration `2` (not `N = 1`) and `clicked` is `false` (not
`true`) after the first active frame, because the update loop increments
once per mapped input.  Deactivation still resets the duration to `0`. -/
theorem event_press_duration_overcounts_shared_inputs :
    (((EventInputHandler.new_with_controls
        [((0 : Nat), (0 : Nat)), (1, 0)]).on_input_down 0).update).press_time 0 = 2
    ∧ (((EventInputHandler.new_with_controls
        [((0 : Nat), (0 : Nat)), (1, 0)]).on_input_down 0).update).clicked 0 = false
    ∧ ((((EventInputHandler.new_with_controls
        [((0 : Nat), (0 : Nat)), (1, 0)]).on_input_down 0).update).on_input_up
          0).update.press_time 0 = 0 := by
  decide

/-- Claim C7, code bug: on the Predicate tracker with configuration
`{0 ↦ 0, 1 ↦ 0}` and an instrumented always-true predicate (state counts
invocations), one `update` invokes the predicate exactly once per
configured input (final count `2` = number of configuration entries), but
the control's new duration is `previous + 2`, not `previous + 1`: the
update loop increments once per mapped input. -/
theorem query_once_per_input_but_double_increment :
    ((QueryInputHandler.new_with_controls
        [((0 : Nat), (0 : Nat)), (1, 0)]).updateM (fun (n : Nat) _ => (true, n + 1)) 0).2 = 2
    ∧ ((QueryInputHandler.new_with_controls
        [((0 : Nat), (0 : Nat)), (1, 0)]).updateM
          (fun (n : Nat) _ => (true, n + 1)) 0).1.press_time 0 = 2 := by
  decide

/-- Claim C4: on the Edge-Driven tracker, if input `k` maps to control `c`
and `c` has exactly one configuration entry, then from a state where `c`'s
duration is `0`, the burst `notifyActivated(k)`, `notifyDeactivated(k)`,
`notifyActivated(k)` before a single `update()` yields press duration `1`
for `c`; notifications never change any press duration before `update`. -/
theorem event_burst_notifications_single_frame (s : EventInputHandler I C) (k : I) (c : C)
    (hk : lookupMap s.control_config k = some c)
    (huniq : s.control_config.countP (fun e => decide (e.2 = c)) = 1)
    (ht : s.control_time c = 0) :
    ((((s.on_input_down k).on_input_up k).on_input_down k).update).press_time c = 1
    ∧ (∀ i, (s.on_input_down i).control_time = s.control_time)
    ∧ (∀ i, (s.on_input_up i).control_time = s.control_time) := by
  refine ⟨?_, fun i => on_input_down_time s i, fun i => on_input_up_time s i⟩
  have hcfg : (((s.on_input_down k).on_input_up k).on_input_down k).control_config
      = s.control_config := by
    rw [on_input_down_config, on_input_up_config, on_input_down_config]
  have htime : (((s.on_input_down k).on_input_up k).on_input_down k).control_time
      = s.control_time := by
    rw [on_input_down_time, on_input_up_time, on_input_down_time]
  have hk2 : lookupMap ((s.on_input_down k).on_input_up k).control_config k = some c := by
    rw [on_input_up_config, on_input_down_config]
    exact hk
  have hprs : (((s.on_input_down k).on_input_up k).on_input_down k).pressed_controls c
      = true := by
    rw [on_input_down_pressed_found _ k c hk2]
    simp
  have hupd : ((((s.on_input_down k).on_input_up k).on_input_down k).update).press_time c
      = tick (((s.on_input_down k).on_input_up k).on_input_down k).pressed_controls
          (((s.on_input_down k).on_input_up k).on_input_down k).control_config
          (((s.on_input_down k).on_input_up k).on_input_down k).control_time c := rfl
  rw [hupd, hcfg, htime, tick_apply, hprs, if_pos rfl, huniq, ht]
  norm_num [bump, u32Size, Function.iterate_one]

/-- Witness for the burst-notification theorem at the concrete tracker
with configuration `{0 ↦ 7}`. -/
theorem event_burst_notifications_single_frame_witness :
    (((((EventInputHandler.new_with_controls
        [((0 : Nat), (7 : Nat))]).on_input_down 0).on_input_up 0).on_input_down
          0).update).press_time 7 = 1 :=
  (event_burst_notifications_single_frame
    (EventInputHandler.new_with_controls [((0 : Nat), (7 : Nat))]) 0 7
    (by decide) (by decide) rfl).1

/-- Claim C5: `clearInputs()` followed by an `update` with no further
activity yields press duration `0` for every control: on the Edge-Driven
tracker (for any state whose nonzero durations all belong to configured
controls) the Pending Activation Set is emptied immediately and the next
`update` zeroes every duration; on the Snapshot tracker (`update []`) and
the Predicate tracker (constant-false predicate) every duration is `0`
after the next update, from any state. -/
theorem clear_inputs_then_update_zeroes (s : EventInputHandler I C)
    (hsupp : ∀ c', s.control_time c' ≠ 0 → c' ∈ s.control_config.map Prod.snd)
    (p : PollingInputHandler I C) (q : QueryInputHandler I C) (c : C) :
    ((s.clear_inputs).update).press_time c = 0
    ∧ (s.clear_inputs).pressed_controls = (fun _ => false)
    ∧ ((p.clear_inputs).update []).press_time c = 0
    ∧ ((q.clear_inputs).update (fun _ => false)).press_time c = 0 := by
  refine ⟨?_, rfl, ?_, ?_⟩
  · have h1 : ((s.clear_inputs).update).press_time c
        = tick (fun _ => false) s.control_config s.control_time c := rfl
    rw [h1, tick_apply]
    by_cases hm : s.control_config.countP (fun e => decide (e.2 = c)) = 0
    · rw [if_neg (by simp), if_pos hm]
      by_contra hne
      exact (countP_snd_ne_zero_of_mem _ _ (hsupp c hne)) hm
    · rw [if_neg (by simp), if_neg hm]
  · have h2 : ((p.clear_inputs).update []).press_time c
        = tick (fun c' => decide (c' ∈ ([] : List C))) p.control_config (fun _ => 0) c := rfl
    rw [h2, tick_apply]
    simp
  · have h3 : ((q.clear_inputs).update (fun _ => false)).press_time c
        = tick (fun c' => decide (c' ∈ q.control_config.filterMap
            (fun _ => (none : Option C)))) q.control_config (fun _ => 0) c := rfl
    rw [h3]
    simp only [filterMap_none]
    rw [tick_apply]
    simp

/-- Witness for the clear-then-update theorem: a tracker holding control
`3` at duration `9` reads duration `0` after `clearInputs` and `update`. -/
theorem clear_inputs_then_update_zeroes_witness :
    (((⟨[((0 : Nat), (3 : Nat))], fun c => if c = 3 then 9 else 0,
        fun c => decide (c = 3)⟩ : EventInputHandler Nat Nat).clear_inputs).update).press_time
      3 = 0 :=
  (clear_inputs_then_update_zeroes
    ⟨[(0, 3)], fun c => if c = 3 then 9 else 0, fun c => decide (c = 3)⟩
    (by
      intro c' hc'
      by_cases h : c' = 3
      · subst h
        decide
      · simp [h] at hc')
    ⟨[(0, 3)], fun _ => 0⟩ ⟨[(0, 3)], fun _ => 0⟩ 3).1

/-- Claim C9: queries and notifications are total with defined defaults:
notifications for an unmapped input are no-ops leaving the whole state
unchanged, a fresh tracker of any variant reports press duration `0` for
every control, and `update` leaves the duration of an unconfigured control
untouched (so a control never observed active stays at `0`). -/
theorem total_queries_and_noop_notifications (s : EventInputHandler I C) (k : I)
    (hk : lookupMap s.control_config k = none)
    (entries : List (I × C)) (c : C)
    (hc : c ∉ s.control_config.map Prod.snd) :
    s.on_input_down k = s
    ∧ s.on_input_up k = s
    ∧ (EventInputHandler.new_with_controls entries).press_time c = 0
    ∧ (PollingInputHandler.new_with_controls entries).press_time c = 0
    ∧ (QueryInputHandler.new_with_controls entries).press_time c = 0
    ∧ (s.update).press_time c = s.press_time c := by
  refine ⟨?_, ?_, rfl, rfl, rfl, ?_⟩
  · simp [EventInputHandler.on_input_down, hk]
  · simp [EventInputHandler.on_input_up, hk]
  · have h1 : (s.update).press_time c
        = tick s.pressed_controls s.control_config s.control_time c := rfl
    rw [h1, tick_apply, countP_snd_eq_zero _ _ hc]
    simp [EventInputHandler.press_time]

/-- Witness for the totality theorem: pressing unmapped input `1` on the
tracker configured `{0 ↦ 5}` leaves it unchanged. -/
theorem total_queries_and_noop_notifications_witness :
    (EventInputHandler.new_with_controls [((0 : Nat), (5 : Nat))]).on_input_down 1
      = EventInputHandler.new_with_controls [((0 : Nat), (5 : Nat))] :=
  (total_queries_and_noop_notifications
    (EventInputHandler.new_with_controls [((0 : Nat), (5 : Nat))]) 1
    (by decide) [(0, 5)] 7 (by decide)).1

/-- Claim C6: the Predicate tracker refines the Snapshot tracker: for
every configuration with distinct input keys, every duration table and
every predicate `p`, `update(p)` on the Predicate tracker produces the
same press durations as the Snapshot tracker's `update` applied to the
configured inputs on which `p` returns true. -/
theorem query_update_refines_snapshot (config : List (I × C)) (t : C → Nat)
    (p : I → Bool) (hnd : (config.map Prod.fst).Nodup) (c : C) :
    (QueryInputHandler.update ⟨config, t⟩ p).press_time c
      = (PollingInputHandler.update ⟨config, t⟩
          ((config.filter (fun e => p e.1)).map Prod.fst)).press_time c := by
  have h1 : (QueryInputHandler.update ⟨config, t⟩ p).press_time c
      = tick (fun c' => decide (c' ∈ config.filterMap
          (fun e => if p e.1 = true then some e.2 else none))) config t c := rfl
  have h2 : (PollingInputHandler.update ⟨config, t⟩
      ((config.filter (fun e => p e.1)).map Prod.fst)).press_time c
      = tick (fun c' => decide (c' ∈ ((config.filter (fun e => p e.1)).map
          Prod.fst).filterMap (lookupMap config))) config t c := rfl
  rw [h1, h2]
  simp only [pressed_of_snapshot_of_query config p hnd]

/-- Witness for the refinement theorem at the configuration
`{0 ↦ 0, 1 ↦ 0, 2 ↦ 1}` and the predicate true exactly on input `0`. -/
theorem query_update_refines_snapshot_witness :
    (QueryInputHandler.update ⟨[((0 : Nat), (0 : Nat)), (1, 0), (2, 1)], fun _ => 0⟩
        (fun i => decide (i = 0))).press_time 0
      = (PollingInputHandler.update ⟨[((0 : Nat), (0 : Nat)), (1, 0), (2, 1)], fun _ => 0⟩
          (([((0 : Nat), (0 : Nat)), (1, 0), (2, 1)].filter
            (fun e => (fun i => decide (i = 0)) e.1)).map Prod.fst)).press_time 0 :=
  query_update_refines_snapshot [(0, 0), (1, 0), (2, 1)] (fun _ => 0)
    (fun i => decide (i = 0)) (by decide) 0

/-- Claim C8: the Snapshot tracker's `update` is insensitive to duplicate
and unmapped entries in its argument: for every state and input list `xs`,
updating with `xs` gives the same press durations as updating with `xs`
deduplicated and restricted to mapped inputs. -/
theorem snapshot_update_ignores_duplicates_unmapped (s : PollingInputHandler I C)
    (xs : List I) (c : C) :
    (s.update xs).press_time c
      = (s.update ((xs.dedup).filter
          (fun i => (lookupMap s.control_config i).isSome))).press_time c := by
  have hmem : ∀ c' : C,
      (c' ∈ xs.filterMap (lookupMap s.control_config))
        ↔ (c' ∈ ((xs.dedup).filter
            (fun i => (lookupMap s.control_config i).isSome)).filterMap
              (lookupMap s.control_config)) := by
    intro c'
    simp only [List.mem_filterMap, List.mem_filter, List.mem_dedup]
    constructor
    · rintro ⟨a, ha, hla⟩
      exact ⟨a, ⟨ha, by simp [hla]⟩, hla⟩
    · rintro ⟨a, ⟨ha, _⟩, hla⟩
      exact ⟨a, ha, hla⟩
  have hfun : (fun c' => decide (c' ∈ xs.filterMap (lookupMap s.control_config)))
      = fun c' => decide (c' ∈ ((xs.dedup).filter
          (fun i => (lookupMap s.control_config i).isSome)).filterMap
            (lookupMap s.control_config)) := by
    funext c'
    exact decide_eq_decide.2 (hmem c')
  have h1 : (s.update xs).press_time c
      = tick (fun c' => decide (c' ∈ xs.filterMap (lookupMap s.control_config)))
          s.control_config s.control_time c := rfl
  have h2 : (s.update ((xs.dedup).filter
      (fun i => (lookupMap s.control_config i).isSome))).press_time c
      = tick (fun c' => decide (c' ∈ ((xs.dedup).filter
          (fun i => (lookupMap s.control_config i).isSome)).filterMap
            (lookupMap s.control_config))) s.control_config s.control_time c := rfl
  rw [h1, h2, hfun]

/-- Claim C10: the press-duration counter follows `u32` wrapping
arithmetic: on each variant configured `[(k, c)]` with `c` at duration `0`
and held continuously (`c` pending / snapshot `[k]` / always-true
predicate), after `n` frames the duration reads `n % 2^32`; in particular
after `2^32` consecutive active frames it has wrapped back to `0`. -/
theorem press_duration_wraps_u32 (k : I) (c : C)
    (e : EventInputHandler I C) (hec : e.control_config = [(k, c)])
    (hep : e.pressed_controls c = true) (het : e.control_time c = 0)
    (p : PollingInputHandler I C) (hpc : p.control_config = [(k, c)])
    (hpt : p.control_time c = 0)
    (q : QueryInputHandler I C) (hqc : q.control_config = [(k, c)])
    (hqt : q.control_time c = 0) (n : Nat) :
    (e.updates n).press_time c = n % u32Size
    ∧ (p.updates [k] n).press_time c = n % u32Size
    ∧ (q.updates (fun _ => true) n).press_time c = n % u32Size
    ∧ (e.updates u32Size).press_time c = 0 := by
  have he : ∀ m, (e.updates m).press_time c = m % u32Size := by
    intro m
    induction m with
    | zero =>
      show e.control_time c = 0 % u32Size
      rw [Nat.zero_mod, het]
    | succ m ih =>
      have hcfg : (e.updates m).control_config = [(k, c)] := by
        rw [event_updates_config, hec]
      have hprs : (e.updates m).pressed_controls c = true := by
        rw [event_updates_pressed]
        exact hep
      have step : (e.updates (m + 1)).press_time c
          = ((e.updates m).update).press_time c := rfl
      rw [step, event_update_single _ k c hcfg hprs]
      have ih' : (e.updates m).control_time c = m % u32Size := ih
      rw [ih', bump_mod]
  have hpl : ∀ m, (p.updates [k] m).press_time c = m % u32Size := by
    intro m
    induction m with
    | zero =>
      show p.control_time c = 0 % u32Size
      rw [Nat.zero_mod, hpt]
    | succ m ih =>
      have hcfg : (p.updates [k] m).control_config = [(k, c)] := by
        rw [polling_updates_config, hpc]
      have step : (p.updates [k] (m + 1)).press_time c
          = ((p.updates [k] m).update [k]).press_time c := rfl
      rw [step, polling_update_single _ k c hcfg]
      have ih' : (p.updates [k] m).control_time c = m % u32Size := ih
      rw [ih', bump_mod]
  have hq : ∀ m, (q.updates (fun _ => true) m).press_time c = m % u32Size := by
    intro m
    induction m with
    | zero =>
      show q.control_time c = 0 % u32Size
      rw [Nat.zero_mod, hqt]
    | succ m ih =>
      have hcfg : (q.updates (fun _ => true) m).control_config = [(k, c)] := by
        rw [query_updates_config, hqc]
      have step : (q.updates (fun _ => true) (m + 1)).press_time c
          = ((q.updates (fun _ => true) m).update (fun _ => true)).press_time c := rfl
      rw [step, query_update_single _ k c hcfg]
      have ih' : (q.updates (fun _ => true) m).control_time c = m % u32Size := ih
      rw [ih', bump_mod]
  refine ⟨he n, hpl n, hq n, ?_⟩
  rw [he u32Size, Nat.mod_self]

/-- Witness for the wrapping theorem: three held frames on concrete
single-mapping trackers read duration `3 % 2^32`. -/
theorem press_duration_wraps_u32_witness :
    ((⟨[((0 : Nat), (1 : Nat))], fun _ => 0,
        fun _ => true⟩ : EventInputHandler Nat Nat).updates 3).press_time 1
      = 3 % u32Size :=
  (press_duration_wraps_u32 0 1 ⟨[(0, 1)], fun _ => 0, fun _ => true⟩ rfl rfl rfl
    ⟨[(0, 1)], fun _ => 0⟩ rfl rfl ⟨[(0, 1)], fun _ => 0⟩ rfl rfl 3).1

end Puppetmaster
